import Mathlib

/-!
Verification of the minima repository sync engine (`get` package).

The definitions below shallowly embed the Go source:
* `src/get/repo.go` (the syncer): XML record types, `checksumTypeMap`,
  `StoreRepo`, `processMetadata`, `processPrimary`;
* `src/get/storage.go`: `NewStoringReader`, `storingReader.Read`,
  `storingReader.Close`.

Parts of the repository that the claims depend on but whose source is not
available (the `Storage.Checksum` / `Recycle` / `Commit` implementations,
the `ChecksumType` enum, the shape of fetch errors, the Go standard
library `bufio.Writer` / `io.TeeReader`) are modelled from the spec; each
such definition carries a doc comment starting with `Modelled from the
spec:`.
-/

namespace Minima

/-- Modelled from the spec: the `ChecksumType` enum is declared outside the
available source files; §4.3 gives it as `{SHA1, SHA256, Unknown}`, with
`Unknown` the value for every name outside the map. -/
inductive ChecksumType where
  | SHA1
  | SHA256
  | Unknown
deriving DecidableEq, Repr

/-- `XMLLocation` maps a `<location>` tag (field `Href`). -/
structure XMLLocation where
  href : String
deriving DecidableEq, Repr

/-- `XMLChecksum` maps a `<checksum>` tag: `Type` attribute and cdata value. -/
structure XMLChecksum where
  type : String
  checksum : String
deriving DecidableEq, Repr

/-- `XMLPackage` maps a `<package>` tag: `Arch`, `Location`, `Checksum`. -/
structure XMLPackage where
  arch : String
  location : XMLLocation
  checksum : XMLChecksum
deriving DecidableEq, Repr

/-- `checksumTypeMap`: the Go map `{"sha": SHA1, "sha1": SHA1, "sha256": SHA256}`.
A Go map lookup on a missing key yields the zero value; per spec §4.3 every
other name maps to `Unknown`. -/
def checksumTypeMap (t : String) : ChecksumType :=
  if t = "sha" then ChecksumType.SHA1
  else if t = "sha1" then ChecksumType.SHA1
  else if t = "sha256" then ChecksumType.SHA256
  else ChecksumType.Unknown

/-- Result of one `r.storage.Checksum(href, type)` query, as `processPrimary`
distinguishes it: `ErrFileNotFound`, any other non-nil error, or a value. -/
inductive ChecksumResult where
  | fileNotFound
  | otherError (msg : String)
  | ok (value : String)
deriving DecidableEq, Repr

/-- The classification a package record receives in `processPrimary`'s
switch (lines 191-206): appended to `packagesToDownload`, logged and
dropped, or appended to `packagesToRecycle`. -/
inductive Classification where
  | download
  | skip
  | recycle
deriving DecidableEq, Repr

/-- The switch at `processPrimary` lines 191-206, for one package record:
`err == ErrFileNotFound` → download; `err != nil` → skip;
`pack.Checksum.Checksum != storageChecksum` → download; default → recycle.
`query` abstracts `r.storage.Checksum`. -/
def classifyPackage (query : String → ChecksumType → ChecksumResult)
    (pack : XMLPackage) : Classification :=
  match query pack.location.href (checksumTypeMap pack.checksum.type) with
  | ChecksumResult.fileNotFound => Classification.download
  | ChecksumResult.otherError _ => Classification.skip
  | ChecksumResult.ok v =>
      if pack.checksum.checksum ≠ v then Classification.download
      else Classification.recycle

/-- The architecture guard at `processPrimary` line 189:
`allArchs || pack.Arch == "noarch" || r.archs[pack.Arch]`, where
`allArchs = len(r.archs) == 0`. The filter is the syncer's arch set. -/
def archAccepted (archs : List String) (arch : String) : Bool :=
  archs.isEmpty || arch == "noarch" || archs.contains arch

/-- Output of the classification loop: the two returned lists plus the
records that hit the logged skip branch. -/
structure ClassifyOut where
  toDownload : List XMLPackage
  toRecycle : List XMLPackage
  skipped : List XMLPackage
deriving DecidableEq, Repr

/-- One step of the `for _, pack := range primary.Packages` loop body
(`processPrimary` lines 188-207). -/
def classifyStep (archs : List String)
    (query : String → ChecksumType → ChecksumResult)
    (acc : ClassifyOut) (pack : XMLPackage) : ClassifyOut :=
  if archAccepted archs pack.arch then
    match classifyPackage query pack with
    | Classification.download => { acc with toDownload := acc.toDownload ++ [pack] }
    | Classification.skip => { acc with skipped := acc.skipped ++ [pack] }
    | Classification.recycle => { acc with toRecycle := acc.toRecycle ++ [pack] }
  else acc

/-- The classification loop of `processPrimary` (lines 187-208) over the
decoded manifest's package list, starting from empty lists. -/
def processPrimaryClassify (archs : List String)
    (query : String → ChecksumType → ChecksumResult)
    (packs : List XMLPackage) : ClassifyOut :=
  packs.foldl (classifyStep archs query) ⟨[], [], []⟩

/-- Membership-in-output characterisation: the loop's accumulator only grows
by appending, so each output list is the input filtered on its branch. -/
theorem processPrimaryClassify_foldl (archs : List String)
    (query : String → ChecksumType → ChecksumResult)
    (packs : List XMLPackage) (acc : ClassifyOut) :
    packs.foldl (classifyStep archs query) acc =
      ⟨acc.toDownload ++ packs.filter
          (fun p => archAccepted archs p.arch &&
            classifyPackage query p == Classification.download),
       acc.toRecycle ++ packs.filter
          (fun p => archAccepted archs p.arch &&
            classifyPackage query p == Classification.recycle),
       acc.skipped ++ packs.filter
          (fun p => archAccepted archs p.arch &&
            classifyPackage query p == Classification.skip)⟩ := by
  induction packs generalizing acc with
  | nil => simp
  | cons p rest ih =>
    simp only [List.foldl_cons, List.filter_cons]
    rw [ih]
    unfold classifyStep
    by_cases h : archAccepted archs p.arch
    · simp only [h, if_true]
      cases hc : classifyPackage query p <;>
        simp [hc, List.append_assoc]
    · simp only [h]
      simp [Bool.false_eq_true] at h
      simp [h]

/-- Modelled from the spec: `Storage.Checksum(path, algorithm)` is not among
the available source files (`src/get/storage.go` holds only the storing
reader). Per §4.1 it fails with `FileNotFound` if no file exists at `path`
and with a `ChecksumError` for I/O or unsupported-algorithm conditions
(§4.3: `Unknown` must never produce a match); otherwise it computes the
checksum of the already-stored bytes, here abstracted by `hashFn`. -/
def storeChecksum (hashFn : ChecksumType → List Nat → String)
    (store : String → Option (List Nat)) (path : String) (t : ChecksumType) :
    ChecksumResult :=
  match store path with
  | none => ChecksumResult.fileNotFound
  | some bs =>
    match t with
    | ChecksumType.Unknown => ChecksumResult.otherError "unsupported checksum type"
    | _ => ChecksumResult.ok (hashFn t bs)

theorem processPrimaryClassify_eq (archs : List String)
    (query : String → ChecksumType → ChecksumResult)
    (packs : List XMLPackage) :
    processPrimaryClassify archs query packs =
      ⟨packs.filter (fun p => archAccepted archs p.arch &&
          classifyPackage query p == Classification.download),
       packs.filter (fun p => archAccepted archs p.arch &&
          classifyPackage query p == Classification.recycle),
       packs.filter (fun p => archAccepted archs p.arch &&
          classifyPackage query p == Classification.skip)⟩ := by
  unfold processPrimaryClassify
  rw [processPrimaryClassify_foldl]
  simp

/-- Fixture: a query oracle with one path not found, one erroring, and the
rest carrying the stored checksum "AAA". -/
def exQuery : String → ChecksumType → ChecksumResult := fun href _ =>
  if href = "pkgs/a.rpm" then ChecksumResult.fileNotFound
  else if href = "pkgs/b.rpm" then ChecksumResult.otherError "io error"
  else ChecksumResult.ok "AAA"

def exPackA : XMLPackage := ⟨"x86_64", ⟨"pkgs/a.rpm"⟩, ⟨"sha256", "AAA"⟩⟩
def exPackB : XMLPackage := ⟨"x86_64", ⟨"pkgs/b.rpm"⟩, ⟨"sha256", "AAA"⟩⟩
def exPackC : XMLPackage := ⟨"x86_64", ⟨"pkgs/c.rpm"⟩, ⟨"sha256", "BBB"⟩⟩
def exPackD : XMLPackage := ⟨"x86_64", ⟨"pkgs/d.rpm"⟩, ⟨"sha256", "AAA"⟩⟩
def exPacks : List XMLPackage := [exPackA, exPackB, exPackC, exPackD]

/-- Claim C1: for every record of the decoded primary manifest that passes
the architecture filter, `processPrimary` classifies it by: checksum query
fails `FileNotFound` → `toDownload`; fails with any other error → skipped
(in neither list); succeeds with a value different from the record's remote
checksum → `toDownload`; succeeds with the same value → `toRecycle`. -/
theorem processPrimary_classification_rules (archs : List String)
    (query : String → ChecksumType → ChecksumResult)
    (packs : List XMLPackage) (pack : XMLPackage)
    (hmem : pack ∈ packs) (hacc : archAccepted archs pack.arch = true) :
    (query pack.location.href (checksumTypeMap pack.checksum.type) =
        ChecksumResult.fileNotFound →
      pack ∈ (processPrimaryClassify archs query packs).toDownload) ∧
    (∀ msg, query pack.location.href (checksumTypeMap pack.checksum.type) =
        ChecksumResult.otherError msg →
      pack ∉ (processPrimaryClassify archs query packs).toDownload ∧
      pack ∉ (processPrimaryClassify archs query packs).toRecycle) ∧
    (∀ v, query pack.location.href (checksumTypeMap pack.checksum.type) =
        ChecksumResult.ok v → v ≠ pack.checksum.checksum →
      pack ∈ (processPrimaryClassify archs query packs).toDownload) ∧
    (∀ v, query pack.location.href (checksumTypeMap pack.checksum.type) =
        ChecksumResult.ok v → v = pack.checksum.checksum →
      pack ∈ (processPrimaryClassify archs query packs).toRecycle) := by
  rw [processPrimaryClassify_eq]
  refine ⟨fun hq => ?_, fun msg hq => ⟨?_, ?_⟩, fun v hq hne => ?_, fun v hq heq => ?_⟩
  · simp only [List.mem_filter]
    exact ⟨hmem, by simp [hacc, classifyPackage, hq]⟩
  · simp only [List.mem_filter, not_and]
    intro _
    simp [hacc, classifyPackage, hq]
  · simp only [List.mem_filter, not_and]
    intro _
    simp [hacc, classifyPackage, hq]
  · simp only [List.mem_filter]
    refine ⟨hmem, ?_⟩
    simp [hacc, classifyPackage, hq, Ne.symm hne]
  · simp only [List.mem_filter]
    refine ⟨hmem, ?_⟩
    simp [hacc, classifyPackage, hq, heq]

/-- Witness for `processPrimary_classification_rules` at the fixture
manifest: each of the four rules at its concrete record. -/
theorem processPrimary_classification_rules_witness :
    exPackA ∈ (processPrimaryClassify [] exQuery exPacks).toDownload ∧
    (exPackB ∉ (processPrimaryClassify [] exQuery exPacks).toDownload ∧
      exPackB ∉ (processPrimaryClassify [] exQuery exPacks).toRecycle) ∧
    exPackC ∈ (processPrimaryClassify [] exQuery exPacks).toDownload ∧
    exPackD ∈ (processPrimaryClassify [] exQuery exPacks).toRecycle := by
  refine ⟨?_, ?_, ?_, ?_⟩
  · exact (processPrimary_classification_rules [] exQuery exPacks exPackA
      (by decide) (by decide)).1 (by decide)
  · exact (processPrimary_classification_rules [] exQuery exPacks exPackB
      (by decide) (by decide)).2.1 "io error" (by decide)
  · exact (processPrimary_classification_rules [] exQuery exPacks exPackC
      (by decide) (by decide)).2.2.1 "AAA" (by decide) (by decide)
  · exact (processPrimary_classification_rules [] exQuery exPacks exPackD
      (by decide) (by decide)).2.2.2 "AAA" (by decide) (by decide)

/-- Claim C4: an empty filter accepts every record; `"noarch"` is accepted
regardless of the filter; a record whose architecture is neither `"noarch"`
nor in the non-empty filter is excluded from all three outcomes (not
downloaded, not recycled, not skip-logged). -/
theorem arch_filter_rules (archs : List String)
    (query : String → ChecksumType → ChecksumResult)
    (packs : List XMLPackage) (pack : XMLPackage) :
    (archs = [] → archAccepted archs pack.arch = true) ∧
    (pack.arch = "noarch" → archAccepted archs pack.arch = true) ∧
    (archs ≠ [] → pack.arch ≠ "noarch" → archs.contains pack.arch = false →
      pack ∉ (processPrimaryClassify archs query packs).toDownload ∧
      pack ∉ (processPrimaryClassify archs query packs).toRecycle ∧
      pack ∉ (processPrimaryClassify archs query packs).skipped) := by
  refine ⟨fun he => by simp [archAccepted, he], fun hn => by simp [archAccepted, hn],
    fun hne hnoarch hcon => ?_⟩
  have hrej : archAccepted archs pack.arch = false := by
    simp only [archAccepted, Bool.or_eq_false_iff]
    refine ⟨⟨?_, ?_⟩, hcon⟩
    · simpa [List.isEmpty_iff] using hne
    · simpa using hnoarch
  rw [processPrimaryClassify_eq]
  refine ⟨?_, ?_, ?_⟩ <;>
    · simp only [List.mem_filter, not_and]
      intro _
      simp [hrej]

/-- Witness for `arch_filter_rules`: filter `["x86_64"]`, a noarch record is
accepted, an i386 record lands in no output list. -/
theorem arch_filter_rules_witness :
    (["x86_64"] = ([] : List String) →
      archAccepted ["x86_64"] "noarch" = true) ∧
    ("noarch" = "noarch" → archAccepted ["x86_64"] "noarch" = true) ∧
    ((["x86_64"] : List String) ≠ [] → "i386" ≠ "noarch" →
      (["x86_64"] : List String).contains "i386" = false →
      ⟨"i386", ⟨"pkgs/i.rpm"⟩, ⟨"sha256", "AAA"⟩⟩ ∉
        (processPrimaryClassify ["x86_64"] exQuery
          [⟨"i386", ⟨"pkgs/i.rpm"⟩, ⟨"sha256", "AAA"⟩⟩]).toDownload ∧
      ⟨"i386", ⟨"pkgs/i.rpm"⟩, ⟨"sha256", "AAA"⟩⟩ ∉
        (processPrimaryClassify ["x86_64"] exQuery
          [⟨"i386", ⟨"pkgs/i.rpm"⟩, ⟨"sha256", "AAA"⟩⟩]).toRecycle ∧
      ⟨"i386", ⟨"pkgs/i.rpm"⟩, ⟨"sha256", "AAA"⟩⟩ ∉
        (processPrimaryClassify ["x86_64"] exQuery
          [⟨"i386", ⟨"pkgs/i.rpm"⟩, ⟨"sha256", "AAA"⟩⟩]).skipped) := by
  have h := arch_filter_rules ["x86_64"] exQuery
    [⟨"i386", ⟨"pkgs/i.rpm"⟩, ⟨"sha256", "AAA"⟩⟩]
    ⟨"i386", ⟨"pkgs/i.rpm"⟩, ⟨"sha256", "AAA"⟩⟩
  have hn := arch_filter_rules ["x86_64"] exQuery
    [⟨"i386", ⟨"pkgs/i.rpm"⟩, ⟨"sha256", "AAA"⟩⟩]
    ⟨"noarch", ⟨"pkgs/n.rpm"⟩, ⟨"sha256", "AAA"⟩⟩
  exact ⟨fun hc => absurd hc (by decide), fun _ => hn.2.1 rfl, h.2.2⟩

/-- Claim C9: under the manifest invariant that locations are unique
(spec §3), the two lists form a partition of the classified records: no
record is in both, neither list repeats a record, and both preserve the
manifest's document order (are sublists of the manifest). -/
theorem classification_partition (archs : List String)
    (query : String → ChecksumType → ChecksumResult)
    (packs : List XMLPackage)
    (hnd : (packs.map (fun p => p.location.href)).Nodup) :
    (∀ p, p ∈ (processPrimaryClassify archs query packs).toDownload →
      p ∉ (processPrimaryClassify archs query packs).toRecycle) ∧
    (processPrimaryClassify archs query packs).toDownload.Nodup ∧
    (processPrimaryClassify archs query packs).toRecycle.Nodup ∧
    (processPrimaryClassify archs query packs).toDownload.Sublist packs ∧
    (processPrimaryClassify archs query packs).toRecycle.Sublist packs := by
  have hpnd : packs.Nodup := hnd.of_map
  rw [processPrimaryClassify_eq]
  refine ⟨fun p hd hr => ?_, hpnd.filter _, hpnd.filter _,
    List.filter_sublist _, List.filter_sublist _⟩
  simp only [List.mem_filter, Bool.and_eq_true, beq_iff_eq] at hd hr
  rw [hd.2.2] at hr
  exact absurd hr.2.2 (by decide)

/-- Witness for `classification_partition` at the fixture manifest. -/
theorem classification_partition_witness :
    (∀ p, p ∈ (processPrimaryClassify [] exQuery exPacks).toDownload →
      p ∉ (processPrimaryClassify [] exQuery exPacks).toRecycle) ∧
    (processPrimaryClassify [] exQuery exPacks).toDownload.Nodup ∧
    (processPrimaryClassify [] exQuery exPacks).toRecycle.Nodup ∧
    (processPrimaryClassify [] exQuery exPacks).toDownload.Sublist exPacks ∧
    (processPrimaryClassify [] exQuery exPacks).toRecycle.Sublist exPacks :=
  classification_partition [] exQuery exPacks (by decide)

/-- Fixture for the unknown-algorithm claim: a record whose checksum type
is "md5", a store that holds bytes at the record's location, and an
abstract hash function. -/
def md5Pack : XMLPackage := ⟨"x86_64", ⟨"pkgs/m.rpm"⟩, ⟨"md5", "ABC"⟩⟩

def md5Store : String → Option (List Nat) := fun p =>
  if p = "pkgs/m.rpm" then some [1, 2, 3] else none

def md5Hash : ChecksumType → List Nat → String := fun _ _ => "HASH"

/-- Claim C3 counterexample: a record with checksum type "md5" whose
location holds a local file is classified skip — the checksum query fails
with the unsupported-algorithm error, so the unknown algorithm does not
force a download decision, contrary to the claim. -/
theorem unknown_checksum_skip_cex :
    md5Store md5Pack.location.href = some [1, 2, 3] ∧
    checksumTypeMap md5Pack.checksum.type = ChecksumType.Unknown ∧
    classifyPackage (storeChecksum md5Hash md5Store) md5Pack =
      Classification.skip ∧
    classifyPackage (storeChecksum md5Hash md5Store) md5Pack ≠
      Classification.download := by decide

/-- Claim C3 (amended): "sha" and "sha1" map to SHA1 and "sha256" to
SHA256; a record with any other checksum type is never classified recycle:
with no local file at its location it is downloaded, and with a local file
present the checksum query fails with the unsupported-algorithm error and
the record is skipped (neither downloaded nor recycled). -/
theorem unknown_checksum_never_recycle
    (hashFn : ChecksumType → List Nat → String)
    (store : String → Option (List Nat)) (pack : XMLPackage)
    (h : checksumTypeMap pack.checksum.type = ChecksumType.Unknown) :
    checksumTypeMap "sha" = ChecksumType.SHA1 ∧
    checksumTypeMap "sha1" = ChecksumType.SHA1 ∧
    checksumTypeMap "sha256" = ChecksumType.SHA256 ∧
    classifyPackage (storeChecksum hashFn store) pack ≠
      Classification.recycle ∧
    (store pack.location.href = none →
      classifyPackage (storeChecksum hashFn store) pack =
        Classification.download) ∧
    (∀ bs, store pack.location.href = some bs →
      classifyPackage (storeChecksum hashFn store) pack =
        Classification.skip) := by
  refine ⟨by decide, by decide, by decide, ?_, fun hn => ?_, fun bs hs => ?_⟩
  · unfold classifyPackage storeChecksum
    rw [h]
    cases store pack.location.href <;> simp
  · unfold classifyPackage storeChecksum
    rw [hn]
  · unfold classifyPackage storeChecksum
    rw [hs, h]

/-- Witness for `unknown_checksum_never_recycle` at the md5 fixture. -/
theorem unknown_checksum_never_recycle_witness :
    checksumTypeMap "sha" = ChecksumType.SHA1 ∧
    checksumTypeMap "sha1" = ChecksumType.SHA1 ∧
    checksumTypeMap "sha256" = ChecksumType.SHA256 ∧
    classifyPackage (storeChecksum md5Hash md5Store) md5Pack ≠
      Classification.recycle ∧
    (md5Store md5Pack.location.href = none →
      classifyPackage (storeChecksum md5Hash md5Store) md5Pack =
        Classification.download) ∧
    (∀ bs, md5Store md5Pack.location.href = some bs →
      classifyPackage (storeChecksum md5Hash md5Store) md5Pack =
        Classification.skip) :=
  unknown_checksum_never_recycle md5Hash md5Store md5Pack (by decide)

/-- `const repomdPath = "repodata/repomd.xml"`. -/
def repomdPath : String := "repodata/repomd.xml"

/-- Modelled from the spec: the errors a fetch-and-store can raise.
`DownloadApply` is not among the available sources; per §4.2 it fails with
`HttpError{statusCode}` on a non-2xx response, and any other failure
(network, storage, consumer) surfaces as a plain error with a message. -/
inductive FetchError where
  | http (code : Nat) (url : String)
  | other (msg : String)
deriving DecidableEq, Repr

/-- Modelled from the spec: the Go `err.Error()` text that
`processMetadata` inspects with `strings.HasSuffix(err.Error(), "404")`.
An HTTP status error embeds the status code, which ends the message. -/
def FetchError.message : FetchError → String
  | FetchError.http code url =>
      "got unexpected status code from " ++ url ++ ": " ++ toString code
  | FetchError.other msg => msg

/-- Modelled from the Go standard library: `strings.HasSuffix(s, suffix)`
reports whether the string `s` ends with `suffix`. -/
def goHasSuffix (s suffix : String) : Bool :=
  decide (suffix.data <:+ s.data)

theorem goHasSuffix_append (x post : String) :
    goHasSuffix (x ++ post) post = true := by
  unfold goHasSuffix
  rw [String.data_append]
  simp [List.suffix_append]

/-- The rendered message of an HTTP 404 failure ends with "404". -/
theorem http404_message_suffix (u : String) :
    goHasSuffix (FetchError.http 404 u).message "404" = true :=
  goHasSuffix_append ("got unexpected status code from " ++ u ++ ": ") "404"

/-- One best-effort auxiliary fetch (`processMetadata` lines 147-155 and
157-165): `err = r.downloadStore(path)`; a non-nil error is cleared when
its message ends in "404", otherwise it is returned. `fetch` abstracts the
outcome of `downloadStore` per path (`none` = success). -/
def auxFetchStep (fetch : String → Option FetchError) (path : String) :
    Option FetchError :=
  match fetch path with
  | some err =>
      if goHasSuffix err.message "404" then none else some err
  | none => none

/-- The error flow of `processMetadata` (lines 120-168): the repomd fetch
(whose consumer decodes the index and processes every entry; any error
from it is returned unchanged), then the `.asc` fetch with the 404 carve-
out, then — only if the `.asc` step did not return — the `.key` fetch with
the same carve-out. `fetch` gives each path's fetch-and-store outcome; for
`repomdPath` it stands for the combined outcome of steps 1-3. -/
def processMetadataErr (fetch : String → Option FetchError) :
    Option FetchError :=
  match fetch repomdPath with
  | some err => some err
  | none =>
    match auxFetchStep fetch (repomdPath ++ ".asc") with
    | some err => some err
    | none => auxFetchStep fetch (repomdPath ++ ".key")

/-- Fixture: repomd and `.key` succeed, the `.asc` fetch fails with a
non-HTTP error whose message happens to end in "404". -/
def cexFetchAsc : String → Option FetchError := fun p =>
  if p = "repodata/repomd.xml.asc" then
    some (FetchError.other "read error at block 404")
  else none

/-- Claim C5 counterexample: a failure on `repodata/repomd.xml.asc` that is
not an HTTP 404 response — a read error whose message merely ends in
"404" — is swallowed and the sync continues, contradicting "any other
failure on them is fatal". -/
theorem aux_fetch_nonhttp_swallowed_cex :
    cexFetchAsc "repodata/repomd.xml.asc" =
      some (FetchError.other "read error at block 404") ∧
    (∀ c u, FetchError.other "read error at block 404" ≠ FetchError.http c u) ∧
    processMetadataErr cexFetchAsc = none := by
  refine ⟨rfl, ?_, by decide⟩
  intro c u h
  exact FetchError.noConfusion h

/-- Claim C5 (amended): any fetch failure of `repodata/repomd.xml` itself,
a 404 included, aborts the whole sync; a failure fetching
`repodata/repomd.xml.asc` or `repodata/repomd.xml.key` is swallowed when
its message ends in "404" — in particular an HTTP 404 response is always
swallowed and the sync continues — and is fatal when its message does not
end in "404". -/
theorem aux_fetch_404_policy (fetch : String → Option FetchError) :
    (∀ e, fetch repomdPath = some e → processMetadataErr fetch = some e) ∧
    (fetch repomdPath = none →
      ∀ u, fetch (repomdPath ++ ".asc") = some (FetchError.http 404 u) →
        processMetadataErr fetch = auxFetchStep fetch (repomdPath ++ ".key")) ∧
    (fetch repomdPath = none →
      auxFetchStep fetch (repomdPath ++ ".asc") = none →
      ∀ u, fetch (repomdPath ++ ".key") = some (FetchError.http 404 u) →
        processMetadataErr fetch = none) ∧
    (fetch repomdPath = none →
      ∀ e, fetch (repomdPath ++ ".asc") = some e →
        goHasSuffix e.message "404" = false →
        processMetadataErr fetch = some e) ∧
    (fetch repomdPath = none →
      auxFetchStep fetch (repomdPath ++ ".asc") = none →
      ∀ e, fetch (repomdPath ++ ".key") = some e →
        goHasSuffix e.message "404" = false →
        processMetadataErr fetch = some e) := by
  refine ⟨fun e he => ?_, fun h0 u hasc => ?_, fun h0 hasc u hkey => ?_,
    fun h0 e hasc hsuf => ?_, fun h0 hasc e hkey hsuf => ?_⟩
  · simp [processMetadataErr, he]
  · have hstep : auxFetchStep fetch (repomdPath ++ ".asc") = none := by
      simp [auxFetchStep, hasc, http404_message_suffix]
    simp [processMetadataErr, h0, hstep]
  · simp only [processMetadataErr, h0, hasc]
    simp [auxFetchStep, hkey, http404_message_suffix]
  · have hstep : auxFetchStep fetch (repomdPath ++ ".asc") = some e := by
      simp [auxFetchStep, hasc, hsuf]
    simp [processMetadataErr, h0, hstep]
  · simp only [processMetadataErr, h0, hasc]
    simp [auxFetchStep, hkey, hsuf]

/-- Fixtures for the 404-policy witnesses: a repomd 404 failure, an HTTP
404 on `.asc`, and an HTTP 500 on `.asc`. -/
def fetchRepomd404 : String → Option FetchError := fun p =>
  if p = "repodata/repomd.xml" then
    some (FetchError.http 404 "http://r/repodata/repomd.xml") else none

def fetchAsc404 : String → Option FetchError := fun p =>
  if p = "repodata/repomd.xml.asc" then
    some (FetchError.http 404 "http://r/repodata/repomd.xml.asc") else none

def fetchAsc500 : String → Option FetchError := fun p =>
  if p = "repodata/repomd.xml.asc" then
    some (FetchError.http 500 "http://r/repodata/repomd.xml.asc") else none

/-- Witness for `aux_fetch_404_policy`: a repomd 404 aborts, an `.asc`
HTTP 404 is swallowed, an `.asc` HTTP 500 is fatal. -/
theorem aux_fetch_404_policy_witness :
    processMetadataErr fetchRepomd404 =
      some (FetchError.http 404 "http://r/repodata/repomd.xml") ∧
    processMetadataErr fetchAsc404 =
      auxFetchStep fetchAsc404 (repomdPath ++ ".key") ∧
    processMetadataErr fetchAsc500 =
      some (FetchError.http 500 "http://r/repodata/repomd.xml.asc") := by
  refine ⟨?_, ?_, ?_⟩
  · exact (aux_fetch_404_policy fetchRepomd404).1 _ (by decide)
  · exact (aux_fetch_404_policy fetchAsc404).2.1 (by decide)
      "http://r/repodata/repomd.xml.asc" (by decide)
  · exact (aux_fetch_404_policy fetchAsc500).2.2.2.1 (by decide) _
      (by decide) (by decide)

/-- Claim C10: given the index stage succeeded, an error from fetching
`repodata/repomd.xml.asc` or `repodata/repomd.xml.key` is swallowed (the
sync continues past it) if and only if its message string ends with
"404", whatever the error's actual kind; otherwise it is the sync's
result. -/
theorem suffix404_decides_swallow (fetch : String → Option FetchError)
    (h0 : fetch repomdPath = none) :
    (∀ e, fetch (repomdPath ++ ".asc") = some e →
      processMetadataErr fetch =
        if goHasSuffix e.message "404" then
          auxFetchStep fetch (repomdPath ++ ".key")
        else some e) ∧
    (∀ e, auxFetchStep fetch (repomdPath ++ ".asc") = none →
      fetch (repomdPath ++ ".key") = some e →
      processMetadataErr fetch =
        if goHasSuffix e.message "404" then none else some e) := by
  constructor
  · intro e hasc
    by_cases hs : goHasSuffix e.message "404" = true
    · have hstep : auxFetchStep fetch (repomdPath ++ ".asc") = none := by
        simp [auxFetchStep, hasc, hs]
      simp [processMetadataErr, h0, hstep, hs]
    · rw [Bool.not_eq_true] at hs
      have hstep : auxFetchStep fetch (repomdPath ++ ".asc") = some e := by
        simp [auxFetchStep, hasc, hs]
      simp [processMetadataErr, h0, hstep, hs]
  · intro e hasc hkey
    by_cases hs : goHasSuffix e.message "404" = true
    · simp only [processMetadataErr, h0, hasc]
      simp [auxFetchStep, hkey, hs]
    · rw [Bool.not_eq_true] at hs
      simp only [processMetadataErr, h0, hasc]
      simp [auxFetchStep, hkey, hs]

/-- Witness for `suffix404_decides_swallow`: the non-HTTP `.asc` failure
whose message ends in "404" is swallowed. -/
theorem suffix404_decides_swallow_witness :
    processMetadataErr cexFetchAsc =
      if goHasSuffix (FetchError.other "read error at block 404").message "404"
      then auxFetchStep cexFetchAsc (repomdPath ++ ".key")
      else some (FetchError.other "read error at block 404") :=
  (suffix404_decides_swallow cexFetchAsc (by decide)).1 _ (by decide)

/-- An observable side effect of `StoreRepo`: one package download attempt
(`r.downloadStoreApply`), one recycle attempt (`r.storage.Recycle`), or
the commit call (`r.storage.Commit`). -/
inductive Event where
  | download (href : String)
  | recycle (href : String)
  | commit
deriving DecidableEq, Repr

/-- The download loop of `StoreRepo` (lines 83-88): each package in order;
on the first non-nil error the function returns. `dl` gives each attempt's
outcome. Returns the attempts made and the loop's error. -/
def execDownloads (dl : String → Option FetchError) :
    List XMLPackage → List Event × Option FetchError
  | [] => ([], none)
  | p :: rest =>
    match dl p.location.href with
    | some e => ([Event.download p.location.href], some e)
    | none =>
      let r := execDownloads dl rest
      (Event.download p.location.href :: r.1, r.2)

/-- The recycle loop of `StoreRepo` (lines 92-97), same shape. `rc` gives
each `storage.Recycle` outcome. -/
def execRecycles (rc : String → Option FetchError) :
    List XMLPackage → List Event × Option FetchError
  | [] => ([], none)
  | p :: rest =>
    match rc p.location.href with
    | some e => ([Event.recycle p.location.href], some e)
    | none =>
      let r := execRecycles rc rest
      (Event.recycle p.location.href :: r.1, r.2)

/-- `StoreRepo` (lines 75-105): classification via `processMetadata`
(abstracted by its error `metaErr` and the two lists it yields), then the
download loop, then the recycle loop, then `storage.Commit` (outcome
`commitErr`); each non-nil error returns at once. Yields the event trace
and the returned error. -/
def storeRepoTrace (metaErr : Option FetchError)
    (dl rc : String → Option FetchError) (commitErr : Option FetchError)
    (toDownload toRecycle : List XMLPackage) :
    List Event × Option FetchError :=
  match metaErr with
  | some e => ([], some e)
  | none =>
    let d := execDownloads dl toDownload
    match d.2 with
    | some e => (d.1, some e)
    | none =>
      let r := execRecycles rc toRecycle
      match r.2 with
      | some e => (d.1 ++ r.1, some e)
      | none => (d.1 ++ r.1 ++ [Event.commit], commitErr)

theorem execDownloads_events_download (dl : String → Option FetchError)
    (l : List XMLPackage) :
    ∀ ev ∈ (execDownloads dl l).1, ∃ h, ev = Event.download h := by
  induction l with
  | nil => simp [execDownloads]
  | cons p rest ih =>
    simp only [execDownloads]
    cases dl p.location.href with
    | some e => simp
    | none =>
      simp only [List.mem_cons]
      rintro ev (rfl | hm)
      · exact ⟨p.location.href, rfl⟩
      · exact ih ev hm

theorem execDownloads_stops (dl : String → Option FetchError)
    (l : List XMLPackage) :
    (execDownloads dl l).1 <+:
      l.map (fun p => Event.download p.location.href) := by
  induction l with
  | nil => simp [execDownloads]
  | cons p rest ih =>
    simp only [execDownloads, List.map_cons]
    cases dl p.location.href with
    | some e =>
      exact ⟨_, rfl⟩
    | none =>
      exact (List.prefix_cons_inj _).mpr ih

theorem execRecycles_events_recycle (rc : String → Option FetchError)
    (l : List XMLPackage) :
    ∀ ev ∈ (execRecycles rc l).1, ∃ h, ev = Event.recycle h := by
  induction l with
  | nil => simp [execRecycles]
  | cons p rest ih =>
    simp only [execRecycles]
    cases rc p.location.href with
    | some e => simp
    | none =>
      simp only [List.mem_cons]
      rintro ev (rfl | hm)
      · exact ⟨p.location.href, rfl⟩
      · exact ih ev hm

/-- Claim C6: `StoreRepo` runs classification, then every download, then
every recycle, then commit, aborting at the first failure: on a
classification error nothing is attempted; on a download failure the
trace is the download attempts up to that failure (a prefix of the
classified list, all download events — no recycle, no commit); on a
recycle failure commit is never called; commit occurs exactly once, after
all download and recycle events, precisely when every download and
recycle succeeded. -/
theorem storeRepo_stage_order (metaErr : Option FetchError)
    (dl rc : String → Option FetchError) (commitErr : Option FetchError)
    (toDownload toRecycle : List XMLPackage) :
    (∀ e, metaErr = some e →
      storeRepoTrace metaErr dl rc commitErr toDownload toRecycle =
        ([], some e)) ∧
    (metaErr = none → ∀ e, (execDownloads dl toDownload).2 = some e →
      storeRepoTrace metaErr dl rc commitErr toDownload toRecycle =
        ((execDownloads dl toDownload).1, some e) ∧
      (execDownloads dl toDownload).1 <+:
        toDownload.map (fun p => Event.download p.location.href) ∧
      (∀ ev ∈ (execDownloads dl toDownload).1, ∃ h, ev = Event.download h)) ∧
    (metaErr = none → (execDownloads dl toDownload).2 = none →
      ∀ e, (execRecycles rc toRecycle).2 = some e →
      storeRepoTrace metaErr dl rc commitErr toDownload toRecycle =
        ((execDownloads dl toDownload).1 ++ (execRecycles rc toRecycle).1,
          some e) ∧
      Event.commit ∉
        (storeRepoTrace metaErr dl rc commitErr toDownload toRecycle).1) ∧
    (metaErr = none → (execDownloads dl toDownload).2 = none →
      (execRecycles rc toRecycle).2 = none →
      storeRepoTrace metaErr dl rc commitErr toDownload toRecycle =
        ((execDownloads dl toDownload).1 ++ (execRecycles rc toRecycle).1 ++
          [Event.commit], commitErr)) ∧
    ((storeRepoTrace metaErr dl rc commitErr toDownload toRecycle).1.count
        Event.commit =
      if metaErr = none ∧ (execDownloads dl toDownload).2 = none ∧
          (execRecycles rc toRecycle).2 = none then 1 else 0) := by
  refine ⟨fun e he => by simp [storeRepoTrace, he],
    fun h0 e he => ?_, fun h0 hd e he => ?_, fun h0 hd hr => ?_, ?_⟩
  · exact ⟨by simp [storeRepoTrace, h0, he],
      execDownloads_stops dl toDownload,
      execDownloads_events_download dl toDownload⟩
  · have htr : storeRepoTrace metaErr dl rc commitErr toDownload toRecycle =
        ((execDownloads dl toDownload).1 ++ (execRecycles rc toRecycle).1,
          some e) := by
      simp [storeRepoTrace, h0, hd, he]
    refine ⟨htr, ?_⟩
    rw [htr]
    simp only [List.mem_append]
    rintro (hm | hm)
    · obtain ⟨h, hh⟩ := execDownloads_events_download dl toDownload _ hm
      exact Event.noConfusion hh
    · obtain ⟨h, hh⟩ := execRecycles_events_recycle rc toRecycle _ hm
      exact Event.noConfusion hh
  · simp [storeRepoTrace, h0, hd, hr]
  · rcases hm : metaErr with _ | e
    · rcases hd : (execDownloads dl toDownload).2 with _ | e
      · rcases hr : (execRecycles rc toRecycle).2 with _ | e
        · have : (storeRepoTrace none dl rc commitErr toDownload
              toRecycle).1 =
            (execDownloads dl toDownload).1 ++ (execRecycles rc toRecycle).1 ++
              [Event.commit] := by
            simp [storeRepoTrace, hd, hr]
          rw [this]
          simp only [hm, hd, hr, and_self, if_true, List.count_append]
          have h1 : (execDownloads dl toDownload).1.count Event.commit = 0 := by
            rw [List.count_eq_zero]
            intro hmem
            obtain ⟨h, hh⟩ := execDownloads_events_download dl toDownload _ hmem
            exact Event.noConfusion hh
          have h2 : (execRecycles rc toRecycle).1.count Event.commit = 0 := by
            rw [List.count_eq_zero]
            intro hmem
            obtain ⟨h, hh⟩ := execRecycles_events_recycle rc toRecycle _ hmem
            exact Event.noConfusion hh
          simp [h1, h2]
        · have : (storeRepoTrace none dl rc commitErr toDownload
              toRecycle).1 =
            (execDownloads dl toDownload).1 ++
              (execRecycles rc toRecycle).1 := by
            simp [storeRepoTrace, hd, hr]
          rw [this]
          simp only [hm, hd, hr, List.count_append]
          have h1 : (execDownloads dl toDownload).1.count Event.commit = 0 := by
            rw [List.count_eq_zero]
            intro hmem
            obtain ⟨h, hh⟩ := execDownloads_events_download dl toDownload _ hmem
            exact Event.noConfusion hh
          have h2 : (execRecycles rc toRecycle).1.count Event.commit = 0 := by
            rw [List.count_eq_zero]
            intro hmem
            obtain ⟨h, hh⟩ := execRecycles_events_recycle rc toRecycle _ hmem
            exact Event.noConfusion hh
          simp [h1, h2]
      · have : (storeRepoTrace none dl rc commitErr toDownload
            toRecycle).1 = (execDownloads dl toDownload).1 := by
          simp [storeRepoTrace, hm, hd]
        rw [this]
        simp only [hm, hd]
        have h1 : (execDownloads dl toDownload).1.count Event.commit = 0 := by
          rw [List.count_eq_zero]
          intro hmem
          obtain ⟨h, hh⟩ := execDownloads_events_download dl toDownload _ hmem
          exact Event.noConfusion hh
        simp [h1]
    · simp [storeRepoTrace, hm]

/-- Fixtures for the stage-order witness: an all-success run and a run
whose first download fails. -/
def noFail : String → Option FetchError := fun _ => none

def dlFailA : String → Option FetchError := fun h =>
  if h = "pkgs/a.rpm" then some (FetchError.other "network down") else none

/-- Witness for `storeRepo_stage_order`: a fully successful run commits
after its download and recycle, and a run whose first download fails
stops at that download. -/
theorem storeRepo_stage_order_witness :
    storeRepoTrace none noFail noFail none [exPackA] [exPackD] =
      ((execDownloads noFail [exPackA]).1 ++
        (execRecycles noFail [exPackD]).1 ++ [Event.commit], none) ∧
    storeRepoTrace none dlFailA noFail none [exPackA, exPackC] [exPackD] =
      ((execDownloads dlFailA [exPackA, exPackC]).1,
        some (FetchError.other "network down")) := by
  constructor
  · exact (storeRepo_stage_order none noFail noFail none [exPackA]
      [exPackD]).2.2.2.1 rfl (by decide) (by decide)
  · exact ((storeRepo_stage_order none dlFailA noFail none
      [exPackA, exPackC] [exPackD]).2.1 rfl
      (FetchError.other "network down") (by decide)).1

/-- State of a `storingReader` (`src/get/storage.go` lines 35-39): the
remaining bytes of the wrapped network reader, the bytes already
persisted to the file created for `filename`, the bytes still held in the
`bufio.Writer`'s buffer, and how many times the inner reader's `Close`
has been called. Bytes are modelled as `Nat`. -/
structure StoringReader where
  input : List Nat
  fileBytes : List Nat
  buf : List Nat
  innerCloseCalls : Nat
deriving DecidableEq, Repr

/-- Modelled from the spec (Go standard library `bufio.Writer` contract):
a buffered write appends the chunk to the buffer when it fits within the
capacity and otherwise writes buffer and chunk through to the file; in
either case the file followed by the buffer holds exactly the bytes
written so far. -/
def bufWrite (cap : Nat) (fileBytes buf chunk : List Nat) :
    List Nat × List Nat :=
  if (buf ++ chunk).length ≤ cap then (fileBytes, buf ++ chunk)
  else (fileBytes ++ buf ++ chunk, [])

/-- `storingReader.Read` (storage.go lines 42-44) delegates to the
`io.TeeReader` (modelled from its Go contract): up to `k` bytes are taken
from the inner reader, written to the buffered writer, and returned to
the caller. -/
def srRead (cap : Nat) (s : StoringReader) (k : Nat) :
    List Nat × StoringReader :=
  let chunk := s.input.take k
  let w := bufWrite cap s.fileBytes s.buf chunk
  (chunk, { s with input := s.input.drop k, fileBytes := w.1, buf := w.2 })

/-- A sequence of `Read` calls with the given request sizes: the
concatenation of all bytes delivered to the caller, and the final
state. -/
def srReads (cap : Nat) (s : StoringReader) :
    List Nat → List Nat × StoringReader
  | [] => ([], s)
  | k :: ks =>
    let r := srRead cap s k
    let rest := srReads cap r.2 ks
    (r.1 ++ rest.1, rest.2)

/-- `storingReader.Close` (storage.go lines 47-53): `t.reader.Close()` is
called first; if it fails its error is returned and the flush is skipped;
otherwise `t.writer.Flush()` moves the buffered bytes into the file.
`closeOk` is the inner `Close`'s outcome; the returned Bool is success. -/
def srClose (closeOk : Bool) (s : StoringReader) : StoringReader × Bool :=
  let s1 := { s with innerCloseCalls := s.innerCloseCalls + 1 }
  if closeOk then
    ({ s1 with buf := [], fileBytes := s1.fileBytes ++ s1.buf }, true)
  else (s1, false)

theorem bufWrite_spec (cap : Nat) (fileBytes buf chunk : List Nat) :
    (bufWrite cap fileBytes buf chunk).1 ++
        (bufWrite cap fileBytes buf chunk).2 =
      fileBytes ++ buf ++ chunk := by
  unfold bufWrite
  split <;> simp

/-- Through any sequence of reads, file bytes followed by buffered bytes
are the previously written bytes followed by the newly delivered ones. -/
theorem srReads_written (cap : Nat) (ks : List Nat) (s : StoringReader) :
    (srReads cap s ks).2.fileBytes ++ (srReads cap s ks).2.buf =
      s.fileBytes ++ s.buf ++ (srReads cap s ks).1 := by
  induction ks generalizing s with
  | nil => simp [srReads]
  | cons k ks ih =>
    simp only [srReads]
    rw [ih]
    simp only [srRead]
    rw [← List.append_assoc, bufWrite_spec]

theorem srReads_closeCalls (cap : Nat) (ks : List Nat) (s : StoringReader) :
    (srReads cap s ks).2.innerCloseCalls = s.innerCloseCalls := by
  induction ks generalizing s with
  | nil => simp [srReads]
  | cons k ks ih =>
    simp only [srReads]
    rw [ih]
    simp [srRead]

/-- Claim C7: for every sequence of Read calls on the reader returned by
`NewStoringReader`, the delivered bytes are written through: at any point
the file plus the writer's buffer hold exactly the concatenation of the
bytes the Read calls returned, and after a Close whose inner close
succeeds the file itself holds exactly that concatenation — no byte is
delivered without being written. -/
theorem storingReader_persists_delivered (cap : Nat) (input : List Nat)
    (ks : List Nat) (closeOk : Bool) (hok : closeOk = true) :
    (srReads cap ⟨input, [], [], 0⟩ ks).2.fileBytes ++
        (srReads cap ⟨input, [], [], 0⟩ ks).2.buf =
      (srReads cap ⟨input, [], [], 0⟩ ks).1 ∧
    (srClose closeOk (srReads cap ⟨input, [], [], 0⟩ ks).2).1.fileBytes =
      (srReads cap ⟨input, [], [], 0⟩ ks).1 := by
  have hw := srReads_written cap ks ⟨input, [], [], 0⟩
  simp only [List.nil_append, List.append_nil] at hw
  subst hok
  refine ⟨hw, ?_⟩
  simp [srClose, hw]

/-- Witness for `storingReader_persists_delivered`: a 6-byte stream read
in chunks of 4 and 2 with buffer capacity 4. -/
theorem storingReader_persists_delivered_witness :
    (srReads 4 ⟨[1, 2, 3, 4, 5, 6], [], [], 0⟩ [4, 2]).2.fileBytes ++
        (srReads 4 ⟨[1, 2, 3, 4, 5, 6], [], [], 0⟩ [4, 2]).2.buf =
      (srReads 4 ⟨[1, 2, 3, 4, 5, 6], [], [], 0⟩ [4, 2]).1 ∧
    (srClose true (srReads 4 ⟨[1, 2, 3, 4, 5, 6], [], [], 0⟩ [4, 2]).2).1.fileBytes =
      (srReads 4 ⟨[1, 2, 3, 4, 5, 6], [], [], 0⟩ [4, 2]).1 :=
  storingReader_persists_delivered 4 [1, 2, 3, 4, 5, 6] [4, 2] true rfl

/-- Claim C8 counterexample: with buffer capacity 10, three delivered
bytes sit in the buffer; the inner reader's Close fails, Close returns
the error without flushing, and the file misses all three bytes — so
delivery is not persisted regardless of the inner Close's outcome. -/
theorem close_skips_flush_cex :
    (srReads 10 ⟨[1, 2, 3], [], [], 0⟩ [3]).1 = [1, 2, 3] ∧
    (srClose false (srReads 10 ⟨[1, 2, 3], [], [], 0⟩ [3]).2).2 = false ∧
    (srClose false (srReads 10 ⟨[1, 2, 3], [], [], 0⟩ [3]).2).1.fileBytes =
      [] := by decide

/-- Claim C8 (amended): Close calls the inner reader's Close exactly once
whether it succeeds or fails; when the inner Close succeeds the writer is
flushed and every byte previously returned by Read is persisted; when it
fails the error is returned, the flush is skipped, and the file and
buffer are left as the reads left them. -/
theorem close_flush_policy (cap : Nat) (input : List Nat) (ks : List Nat)
    (closeOk : Bool) :
    (srClose closeOk (srReads cap ⟨input, [], [], 0⟩ ks).2).1.innerCloseCalls
      = 1 ∧
    (closeOk = true →
      (srClose closeOk (srReads cap ⟨input, [], [], 0⟩ ks).2).1.fileBytes =
        (srReads cap ⟨input, [], [], 0⟩ ks).1 ∧
      (srClose closeOk (srReads cap ⟨input, [], [], 0⟩ ks).2).1.buf = [] ∧
      (srClose closeOk (srReads cap ⟨input, [], [], 0⟩ ks).2).2 = true) ∧
    (closeOk = false →
      (srClose closeOk (srReads cap ⟨input, [], [], 0⟩ ks).2).1.fileBytes =
        (srReads cap ⟨input, [], [], 0⟩ ks).2.fileBytes ∧
      (srClose closeOk (srReads cap ⟨input, [], [], 0⟩ ks).2).1.buf =
        (srReads cap ⟨input, [], [], 0⟩ ks).2.buf ∧
      (srClose closeOk (srReads cap ⟨input, [], [], 0⟩ ks).2).2 = false) := by
  have hw := srReads_written cap ks ⟨input, [], [], 0⟩
  simp only [List.nil_append, List.append_nil] at hw
  have hcc := srReads_closeCalls cap ks ⟨input, [], [], 0⟩
  refine ⟨?_, fun h => ?_, fun h => ?_⟩
  · cases closeOk <;> simp [srClose, hcc]
  · subst h
    exact ⟨by simp [srClose, hw], by simp [srClose], by simp [srClose]⟩
  · subst h
    exact ⟨by simp [srClose], by simp [srClose], by simp [srClose]⟩

/-- Witness for `close_flush_policy` at the three-byte fixture, both for a
succeeding and for a failing inner Close. -/
theorem close_flush_policy_witness :
    ((srClose true (srReads 10 ⟨[1, 2, 3], [], [], 0⟩ [3]).2).1.fileBytes =
        (srReads 10 ⟨[1, 2, 3], [], [], 0⟩ [3]).1 ∧
      (srClose true (srReads 10 ⟨[1, 2, 3], [], [], 0⟩ [3]).2).1.buf = [] ∧
      (srClose true (srReads 10 ⟨[1, 2, 3], [], [], 0⟩ [3]).2).2 = true) ∧
    ((srClose false (srReads 10 ⟨[1, 2, 3], [], [], 0⟩ [3]).2).1.fileBytes =
        (srReads 10 ⟨[1, 2, 3], [], [], 0⟩ [3]).2.fileBytes ∧
      (srClose false (srReads 10 ⟨[1, 2, 3], [], [], 0⟩ [3]).2).1.buf =
        (srReads 10 ⟨[1, 2, 3], [], [], 0⟩ [3]).2.buf ∧
      (srClose false (srReads 10 ⟨[1, 2, 3], [], [], 0⟩ [3]).2).2 = false) :=
  ⟨(close_flush_policy 10 [1, 2, 3] [3] true).2.1 rfl,
    (close_flush_policy 10 [1, 2, 3] [3] false).2.2 rfl⟩

/-- Modelled from the spec: a remote repository state as one sync sees
it — the decoded primary manifest and the bytes served per repo-relative
path (`none` when the path yields a fetch failure). -/
structure Remote where
  packages : List XMLPackage
  content : String → Option (List Nat)

/-- Modelled from the spec (§4.1, §6): the committed package bytes after
one successful `StoreRepo` run against `remote` starting from committed
store `store`. Every classified download location holds the bytes the
remote serves (the store does not verify the advisory checksum), every
classified recycle keeps its current bytes, and commit discards all
unreferenced paths. Metadata files are re-fetched each run and play no
part in package classification. -/
def afterRun (hashFn : ChecksumType → List Nat → String)
    (archs : List String) (remote : Remote)
    (store : String → Option (List Nat)) : String → Option (List Nat) :=
  fun path =>
    if (processPrimaryClassify archs (storeChecksum hashFn store)
        remote.packages).toDownload.any
        (fun p => p.location.href == path) then
      remote.content path
    else if (processPrimaryClassify archs (storeChecksum hashFn store)
        remote.packages).toRecycle.any
        (fun p => p.location.href == path) then
      store path
    else none

theorem classifyPackage_of_fileNotFound
    (query : String → ChecksumType → ChecksumResult) (pack : XMLPackage)
    (hq : query pack.location.href (checksumTypeMap pack.checksum.type) =
      ChecksumResult.fileNotFound) :
    classifyPackage query pack = Classification.download := by
  unfold classifyPackage
  rw [hq]

theorem classifyPackage_of_otherError
    (query : String → ChecksumType → ChecksumResult) (pack : XMLPackage)
    (m : String)
    (hq : query pack.location.href (checksumTypeMap pack.checksum.type) =
      ChecksumResult.otherError m) :
    classifyPackage query pack = Classification.skip := by
  unfold classifyPackage
  rw [hq]

theorem classifyPackage_of_ok
    (query : String → ChecksumType → ChecksumResult) (pack : XMLPackage)
    (v : String)
    (hq : query pack.location.href (checksumTypeMap pack.checksum.type) =
      ChecksumResult.ok v) :
    classifyPackage query pack =
      if pack.checksum.checksum ≠ v then Classification.download
      else Classification.recycle := by
  unfold classifyPackage
  rw [hq]

theorem storeChecksum_ok_of_known (hashFn : ChecksumType → List Nat → String)
    (store : String → Option (List Nat)) (path : String) (t : ChecksumType)
    (ht : t ≠ ChecksumType.Unknown) (bs : List Nat) (hs : store path = some bs) :
    storeChecksum hashFn store path t = ChecksumResult.ok (hashFn t bs) := by
  unfold storeChecksum
  rw [hs]
  cases t with
  | Unknown => exact absurd rfl ht
  | SHA1 => rfl
  | SHA256 => rfl

theorem storeChecksum_eq_ok (hashFn : ChecksumType → List Nat → String)
    (store : String → Option (List Nat)) (path : String) (t : ChecksumType)
    (v : String) (h : storeChecksum hashFn store path t = ChecksumResult.ok v) :
    ∃ bs, store path = some bs ∧ v = hashFn t bs := by
  unfold storeChecksum at h
  cases hs : store path with
  | none =>
    rw [hs] at h
    exact absurd h (by simp)
  | some bs =>
    rw [hs] at h
    cases t with
    | Unknown => exact absurd h (by simp)
    | SHA1 =>
      refine ⟨bs, rfl, ?_⟩
      simp only [ChecksumResult.ok.injEq] at h
      exact h.symm
    | SHA256 =>
      refine ⟨bs, rfl, ?_⟩
      simp only [ChecksumResult.ok.injEq] at h
      exact h.symm

/-- A record with a known checksum algorithm is never skipped: the store's
query only errors (other than not-found) on the unknown algorithm. -/
theorem classify_skip_only_unknown (hashFn : ChecksumType → List Nat → String)
    (store : String → Option (List Nat)) (p : XMLPackage)
    (h : classifyPackage (storeChecksum hashFn store) p = Classification.skip) :
    checksumTypeMap p.checksum.type = ChecksumType.Unknown := by
  cases hq : storeChecksum hashFn store p.location.href
      (checksumTypeMap p.checksum.type) with
  | fileNotFound =>
    rw [classifyPackage_of_fileNotFound _ _ hq] at h
    exact Classification.noConfusion h
  | otherError m =>
    unfold storeChecksum at hq
    cases hs : store p.location.href with
    | none =>
      rw [hs] at hq
      exact absurd hq (by simp)
    | some bs =>
      rw [hs] at hq
      cases ht : checksumTypeMap p.checksum.type with
      | Unknown => rfl
      | SHA1 =>
        rw [ht] at hq
        exact absurd hq (by simp)
      | SHA256 =>
        rw [ht] at hq
        exact absurd hq (by simp)
  | ok v =>
    rw [classifyPackage_of_ok _ _ _ hq] at h
    split at h <;> exact Classification.noConfusion h

/-- After a successful first run, an architecture-accepted record with a
known algorithm whose remote bytes hash to its manifest checksum
classifies recycle on the second run. -/
theorem secondRun_classify_recycle (hashFn : ChecksumType → List Nat → String)
    (archs : List String) (remote : Remote)
    (store : String → Option (List Nat)) (p : XMLPackage)
    (hmem : p ∈ remote.packages)
    (hacc : archAccepted archs p.arch = true)
    (ht : checksumTypeMap p.checksum.type ≠ ChecksumType.Unknown)
    (bs : List Nat) (hbs : remote.content p.location.href = some bs)
    (hhash : hashFn (checksumTypeMap p.checksum.type) bs =
      p.checksum.checksum) :
    classifyPackage (storeChecksum hashFn (afterRun hashFn archs remote store))
      p = Classification.recycle := by
  have hstore2 : ∃ b, afterRun hashFn archs remote store p.location.href =
      some b ∧ hashFn (checksumTypeMap p.checksum.type) b =
        p.checksum.checksum := by
    unfold afterRun
    by_cases hdl : (processPrimaryClassify archs (storeChecksum hashFn store)
        remote.packages).toDownload.any
        (fun q => q.location.href == p.location.href) = true
    · rw [hdl]
      simp only [if_true]
      exact ⟨bs, hbs, hhash⟩
    · rw [Bool.not_eq_true] at hdl
      rw [hdl]
      simp only [Bool.false_eq_true, if_false]
      have hc1 : classifyPackage (storeChecksum hashFn store) p =
          Classification.recycle := by
        cases hc : classifyPackage (storeChecksum hashFn store) p with
        | download =>
          exfalso
          have hpin : p ∈ (processPrimaryClassify archs
              (storeChecksum hashFn store) remote.packages).toDownload := by
            rw [processPrimaryClassify_eq]
            simp only [List.mem_filter]
            exact ⟨hmem, by simp [hacc, hc]⟩
          have : (processPrimaryClassify archs (storeChecksum hashFn store)
              remote.packages).toDownload.any
              (fun q => q.location.href == p.location.href) = true := by
            rw [List.any_eq_true]
            exact ⟨p, hpin, by simp⟩
          rw [this] at hdl
          exact Bool.noConfusion hdl
        | skip => exact absurd (classify_skip_only_unknown hashFn store p hc) ht
        | recycle => rfl
      have hpr : p ∈ (processPrimaryClassify archs (storeChecksum hashFn store)
          remote.packages).toRecycle := by
        rw [processPrimaryClassify_eq]
        simp only [List.mem_filter]
        exact ⟨hmem, by simp [hacc, hc1]⟩
      have hany : (processPrimaryClassify archs (storeChecksum hashFn store)
          remote.packages).toRecycle.any
          (fun q => q.location.href == p.location.href) = true := by
        rw [List.any_eq_true]
        exact ⟨p, hpr, by simp⟩
      rw [hany]
      simp only [if_true]
      have hq1 : storeChecksum hashFn store p.location.href
          (checksumTypeMap p.checksum.type) =
          ChecksumResult.ok p.checksum.checksum := by
        cases hq : storeChecksum hashFn store p.location.href
            (checksumTypeMap p.checksum.type) with
        | fileNotFound =>
          rw [classifyPackage_of_fileNotFound _ _ hq] at hc1
          exact Classification.noConfusion hc1
        | otherError m =>
          rw [classifyPackage_of_otherError _ _ _ hq] at hc1
          exact Classification.noConfusion hc1
        | ok v =>
          rw [classifyPackage_of_ok _ _ _ hq] at hc1
          split at hc1
          · exact Classification.noConfusion hc1
          · rename_i hne
            rw [not_not] at hne
            rw [hne]
      obtain ⟨b0, hb0, hvb⟩ := storeChecksum_eq_ok hashFn store
        p.location.href (checksumTypeMap p.checksum.type)
        p.checksum.checksum hq1
      exact ⟨b0, hb0, hvb.symm⟩
  obtain ⟨b, hb, hhb⟩ := hstore2
  have hq2 : storeChecksum hashFn (afterRun hashFn archs remote store)
      p.location.href (checksumTypeMap p.checksum.type) =
      ChecksumResult.ok p.checksum.checksum := by
    rw [storeChecksum_ok_of_known hashFn _ _ _ ht b hb, hhb]
  rw [classifyPackage_of_ok _ _ _ hq2]
  simp

/-- Claim C2 (amended): running `StoreRepo` twice against an unchanged
remote performs zero package downloads on the second run, with every
architecture-accepted record classifying recycle, provided every manifest
record uses a known checksum algorithm and the remote serves, at each
record's location, bytes whose checksum equals the record's manifest
checksum. (Without those provisos the second run may download again or
skip records.) -/
theorem storeRepo_second_run_recycles
    (hashFn : ChecksumType → List Nat → String) (archs : List String)
    (remote : Remote) (store : String → Option (List Nat))
    (hknown : ∀ p ∈ remote.packages,
      checksumTypeMap p.checksum.type ≠ ChecksumType.Unknown)
    (hserve : ∀ p ∈ remote.packages, ∃ bs,
      remote.content p.location.href = some bs ∧
      hashFn (checksumTypeMap p.checksum.type) bs = p.checksum.checksum) :
    (processPrimaryClassify archs
        (storeChecksum hashFn (afterRun hashFn archs remote store))
        remote.packages).toDownload = [] ∧
    (processPrimaryClassify archs
        (storeChecksum hashFn (afterRun hashFn archs remote store))
        remote.packages).toRecycle =
      remote.packages.filter (fun p => archAccepted archs p.arch) := by
  have hrec : ∀ p ∈ remote.packages, archAccepted archs p.arch = true →
      classifyPackage (storeChecksum hashFn (afterRun hashFn archs remote
        store)) p = Classification.recycle := by
    intro p hp hacc
    obtain ⟨bs, hbs, hh⟩ := hserve p hp
    exact secondRun_classify_recycle hashFn archs remote store p hp hacc
      (hknown p hp) bs hbs hh
  rw [processPrimaryClassify_eq]
  constructor
  · rw [List.filter_eq_nil_iff]
    intro p hp
    by_cases hacc : archAccepted archs p.arch = true
    · simp [hacc, hrec p hp hacc]
    · rw [Bool.not_eq_true] at hacc
      simp [hacc]
  · apply List.filter_congr
    intro p hp
    by_cases hacc : archAccepted archs p.arch = true
    · simp [hacc, hrec p hp hacc]
    · rw [Bool.not_eq_true] at hacc
      simp [hacc]

/-- Fixtures for idempotence: a one-package remote. In `idemRemote` the
served bytes hash to the manifest checksum "AAA"; in `badRemote` the
manifest claims "AAA" but the served bytes hash to "BBB". -/
def idemHash : ChecksumType → List Nat → String := fun _ bs =>
  if bs = [9] then "AAA" else "BBB"

def idemRemote : Remote :=
  ⟨[⟨"x86_64", ⟨"pkgs/a-1.0.rpm"⟩, ⟨"sha256", "AAA"⟩⟩],
    fun p => if p = "pkgs/a-1.0.rpm" then some [9] else none⟩

def badRemote : Remote :=
  ⟨[⟨"x86_64", ⟨"pkgs/a-1.0.rpm"⟩, ⟨"sha256", "AAA"⟩⟩],
    fun p => if p = "pkgs/a-1.0.rpm" then some [7] else none⟩

def emptyStore : String → Option (List Nat) := fun _ => none

/-- Claim C2 counterexample: a remote whose served package bytes do not
hash to the manifest checksum. The first run (from an empty store)
downloads the package, yet the second run's classification downloads it
again — not every record classifies recycle and the download count is not
zero. -/
theorem storeRepo_not_idempotent_cex :
    (processPrimaryClassify [] (storeChecksum idemHash emptyStore)
        badRemote.packages).toDownload.length = 1 ∧
    (processPrimaryClassify []
        (storeChecksum idemHash (afterRun idemHash [] badRemote emptyStore))
        badRemote.packages).toDownload ≠ [] ∧
    (processPrimaryClassify []
        (storeChecksum idemHash (afterRun idemHash [] badRemote emptyStore))
        badRemote.packages).toRecycle = [] := by decide

/-- Witness for `storeRepo_second_run_recycles` at the one-package remote
whose bytes match the manifest checksum. -/
theorem storeRepo_second_run_recycles_witness :
    (processPrimaryClassify []
        (storeChecksum idemHash (afterRun idemHash [] idemRemote emptyStore))
        idemRemote.packages).toDownload = [] ∧
    (processPrimaryClassify []
        (storeChecksum idemHash (afterRun idemHash [] idemRemote emptyStore))
        idemRemote.packages).toRecycle =
      idemRemote.packages.filter (fun p => archAccepted [] p.arch) :=
  storeRepo_second_run_recycles idemHash [] idemRemote emptyStore
    (by decide) (by decide)

end Minima
